import Mathlib

/-!
Verification of the Snowflake workload credit calculator.

The source is a single script (src/streamlit.py).  The data model and the
operations below are a shallow embedding of that script:

* `CREDITS_PER_HOUR` and `WEEKS_PER_MONTH` embed the constants at lines 9-21.
* `Workload` embeds the dictionaries stored in the session list; numeric
  fields use exact rational arithmetic in place of floating point.
* `evalGo` / `evaluate` embed the per-workload calculation and the running
  totals of the render loop (lines 48-115 and 174), with the dictionary
  lookup `CREDITS_PER_HOUR[...]` made explicit as a fallible step, as a
  Python KeyError aborts the whole pass.
* `appendWorkload` embeds the "Add New Workload" handler (lines 131-134),
  `removeAt` embeds `workloads.pop(i)` (line 85, IndexError when out of
  range), and `initStore` embeds the session-state block (lines 25-35).
-/

/-- Credits consumed per hour for each standard warehouse size
(src/streamlit.py lines 9-20). -/
def CREDITS_PER_HOUR : List (String × ℚ) :=
  [("X-Small", 1), ("Small", 2), ("Medium", 4), ("Large", 8), ("X-Large", 16),
   ("2X-Large", 32), ("3X-Large", 64), ("4X-Large", 128), ("5X-Large", 256),
   ("6X-Large", 512)]

/-- Dictionary lookup into `CREDITS_PER_HOUR`; `none` models a KeyError. -/
def lookupRate (s : String) : Option ℚ :=
  (CREDITS_PER_HOUR.find? (fun p => p.1 == s)).map (fun p => p.2)

/-- Average weeks in a month (src/streamlit.py line 21). -/
def WEEKS_PER_MONTH : ℚ := 52 / 12

/-- A workload record as kept in the session list: all keys present. -/
structure Workload where
  name : String
  size : String
  count : Nat
  uptime : ℚ
  days_per_week : Nat
deriving DecidableEq

/-- Per-workload daily credits (src/streamlit.py line 111):
`credits_for_size * uptime * count`, failing when the size is not a
rate-table key. -/
def workload_daily_credits (w : Workload) : Option ℚ :=
  (lookupRate w.size).map (fun r => r * w.uptime * (w.count : ℚ))

/-- Per-workload monthly credits (src/streamlit.py line 112):
`workload_daily_credits * days_per_week * WEEKS_PER_MONTH`. -/
def workload_monthly_credits (w : Workload) : Option ℚ :=
  (workload_daily_credits w).map
    (fun d => d * (w.days_per_week : ℚ) * WEEKS_PER_MONTH)

/-- One row of the per-workload summary (the derived credit figures). -/
structure PerWorkload where
  daily : ℚ
  monthly : ℚ
deriving DecidableEq

/-- The complete output of one evaluation pass. -/
structure EvalResult where
  perWorkload : List PerWorkload
  totalDaily : ℚ
  totalMonthly : ℚ
  totalAnnual : ℚ
deriving DecidableEq

/-- Failure of the calculator: a workload size missing from the rate table
(a Python KeyError at src/streamlit.py line 110). -/
inductive CalcError where
  | invalidSize (s : String)
deriving DecidableEq

/-- The render loop of src/streamlit.py lines 48-126: running daily and
monthly totals plus the per-workload summary rows, finished off with the
annual figure `total_monthly_credits * 12` of line 174.  A missing size
aborts the whole pass with `invalidSize`. -/
def evalGo : List Workload → ℚ → ℚ → List PerWorkload → Except CalcError EvalResult
  | [], td, tm, acc => .ok ⟨acc.reverse, td, tm, tm * 12⟩
  | w :: rest, td, tm, acc =>
    match lookupRate w.size with
    | none => .error (.invalidSize w.size)
    | some r =>
      let d := r * w.uptime * (w.count : ℚ)
      let m := d * (w.days_per_week : ℚ) * WEEKS_PER_MONTH
      evalGo rest (td + d) (tm + m) (⟨d, m⟩ :: acc)

/-- Calculator entry point: one full evaluation pass over the list, with
both totals starting at 0 (src/streamlit.py lines 48-49). -/
def evaluate (ws : List Workload) : Except CalcError EvalResult :=
  evalGo ws 0 0 []

/-- The totals triple (daily, monthly, annual) of an evaluation outcome. -/
def totalsOf (r : Except CalcError EvalResult) : Except CalcError (ℚ × ℚ × ℚ) :=
  r.map (fun res => (res.totalDaily, res.totalMonthly, res.totalAnnual))

/-- Store-level failures: bad index or value outside a field domain. -/
inductive StoreError where
  | outOfRange
  | invalidValue
deriving DecidableEq

/-- The single default workload created at session start
(src/streamlit.py lines 26-28). -/
def defaultWorkload : Workload := ⟨"Workload 1", "Medium", 1, 8, 5⟩

/-- A possibly old-format stored record: `name` and `days_per_week` may be
missing (absent dictionary keys), the other keys are always present. -/
structure StoredWorkload where
  name : Option String
  size : String
  count : Nat
  uptime : ℚ
  days_per_week : Option Nat
deriving DecidableEq

/-- Backfill of one record at position `i` (src/streamlit.py lines 31-35):
a missing name becomes "Workload {i+1}", a missing days-per-week becomes 7,
present fields are kept. -/
def normalizeWorkload (i : Nat) (w : StoredWorkload) : Workload :=
  ⟨w.name.getD ("Workload " ++ toString (i + 1)), w.size, w.count, w.uptime,
   w.days_per_week.getD 7⟩

/-- Backfill of a stored list starting at position `i`, mirroring the
`enumerate` loop of src/streamlit.py lines 31-35. -/
def normalizeFrom : Nat → List StoredWorkload → List Workload
  | _, [] => []
  | i, w :: rest => normalizeWorkload i w :: normalizeFrom (i + 1) rest

/-- Session-state initialization (src/streamlit.py lines 25-35): with no
existing list, create the single default workload; otherwise backfill the
existing records in place. -/
def initStore : Option (List StoredWorkload) → List Workload
  | none => [defaultWorkload]
  | some ws => normalizeFrom 0 ws

/-- View of a fully-populated record as a stored record (all keys set),
the shape the session holds after a pass of the script. -/
def toStored (w : Workload) : StoredWorkload :=
  ⟨some w.name, w.size, w.count, w.uptime, some w.days_per_week⟩

/-- The "Add New Workload" handler (src/streamlit.py lines 131-134):
append a record named by position with the standard defaults. -/
def appendWorkload (ws : List Workload) : List Workload :=
  ws ++ [⟨"Workload " ++ toString (ws.length + 1), "X-Small", 4, 8, 5⟩]

/-- Removal by position, embedding `workloads.pop(i)` of src/streamlit.py
line 85: a Python list pop raises IndexError, leaving the list as it was,
when the index is not a valid position. -/
def removeAt (ws : List Workload) (i : Nat) : Except StoreError (List Workload) :=
  if i < ws.length then .ok (ws.eraseIdx i) else .error .outOfRange

/-- A single-field update request carrying the new value. -/
inductive FieldUpdate where
  | name (v : String)
  | size (v : String)
  | count (v : Nat)
  | uptime (v : ℚ)
  | days (v : Nat)
deriving DecidableEq

/-- Write one field of a record, keeping every other field. -/
def setField (w : Workload) (f : FieldUpdate) : Workload :=
  match f with
  | .name v => ⟨v, w.size, w.count, w.uptime, w.days_per_week⟩
  | .size v => ⟨w.name, v, w.count, w.uptime, w.days_per_week⟩
  | .count v => ⟨w.name, w.size, v, w.uptime, w.days_per_week⟩
  | .uptime v => ⟨w.name, w.size, w.count, v, w.days_per_week⟩
  | .days v => ⟨w.name, w.size, w.count, w.uptime, v⟩

/-- Modelled from the spec: the domain test of each field (spec section 3:
name non-empty, size a rate-table key, count at least 1, uptime in [0,24],
days-per-week in [1,7]).  In src/ these bounds appear only as widget
constraints (selectbox options, number_input min_value, slider ranges at
lines 64-107); the explicit validate-and-reject step of the Store is not
in src/. -/
def validUpdate : FieldUpdate → Bool
  | .name v => !(v == "")
  | .size v => (lookupRate v).isSome
  | .count v => decide (1 ≤ v)
  | .uptime v => decide (0 ≤ v ∧ v ≤ 24)
  | .days v => decide (1 ≤ v ∧ v ≤ 7)

/-- Modelled from the spec: the Store operation `update(index, field,
value)` (spec section 4.1).  src/ realizes a field update as the direct
widget assignment `workloads[i][field] = widget(...)` at lines 55-107,
with validation enforced by the widget; the explicit failure path with
InvalidValue and OutOfRange is absent from src/ and follows the spec words.
An error outcome produces no new list, so nothing invalid is ever stored. -/
def update (ws : List Workload) (i : Nat) (f : FieldUpdate) :
    Except StoreError (List Workload) :=
  match ws[i]? with
  | none => .error .outOfRange
  | some w =>
    if validUpdate f then .ok (ws.set i (setField w f)) else .error .invalidValue

/-! ### Helper lemmas -/

/-- Erasing the position right after a list removes a singleton appended
to it. -/
theorem eraseIdx_append_singleton {α : Type} (ws : List α) (x : α) :
    (ws ++ [x]).eraseIdx ws.length = ws := by
  induction ws with
  | nil => rfl
  | cons a rest ih => simpa [List.eraseIdx] using ih

/-! ### Claim theorems -/

/-- C9: evaluating the empty workload list yields totals all 0 and an
empty per-workload sequence. -/
theorem evaluate_nil_all_zero :
    evaluate [] = .ok ⟨[], 0, 0, 0⟩ := by
  simp [evaluate, evalGo]

/-- C6: appending a new workload and then removing the newly appended last
position restores the prior list exactly, by value. -/
theorem append_then_removeAt_last :
    ∀ ws : List Workload, removeAt (appendWorkload ws) ws.length = .ok ws := by
  intro ws
  simp [removeAt, appendWorkload, eraseIdx_append_singleton]

/-- C8: removing at any index that is not a valid position fails with
OutOfRange; the list value is untouched since no new list is produced. -/
theorem removeAt_out_of_range (ws : List Workload) (i : Nat)
    (h : ws.length ≤ i) : removeAt ws i = .error .outOfRange := by
  simp [removeAt, Nat.not_lt.mpr h]

/-- Witness for C8: removeAt 5 on a concrete 2-element list fails with
OutOfRange. -/
theorem removeAt_out_of_range_witness :
    removeAt [defaultWorkload, defaultWorkload] 5 = .error .outOfRange :=
  removeAt_out_of_range [defaultWorkload, defaultWorkload] 5 (by decide)

/-- C1: for a workload whose size is a valid rate-table key with rate `r`,
daily credits are `r * uptimeHours * count`, monthly credits are
`dailyCredits * activeDaysPerWeek * (52/12)`, and `WEEKS_PER_MONTH` is
exactly the constant `52/12`. -/
theorem credits_formula (w : Workload) (r : ℚ)
    (h : lookupRate w.size = some r) :
    workload_daily_credits w = some (r * w.uptime * (w.count : ℚ)) ∧
    workload_monthly_credits w =
      some (r * w.uptime * (w.count : ℚ) * (w.days_per_week : ℚ) * (52 / 12)) ∧
    WEEKS_PER_MONTH = 52 / 12 := by
  refine ⟨?_, ?_, rfl⟩ <;>
    simp [workload_daily_credits, workload_monthly_credits, h, WEEKS_PER_MONTH]

/-- Witness for C1: the formula evaluated on the default workload
(size Medium, rate 4, count 1, uptime 8, five days a week). -/
theorem credits_formula_witness :
    workload_daily_credits defaultWorkload = some (4 * 8 * (1 : ℚ)) ∧
    workload_monthly_credits defaultWorkload =
      some (4 * 8 * (1 : ℚ) * (5 : ℚ) * (52 / 12)) ∧
    WEEKS_PER_MONTH = 52 / 12 :=
  credits_formula defaultWorkload 4 (by rfl)

/-- Evaluation over a list of workloads whose sizes are all valid keys
succeeds, with the running totals accumulating the per-workload sums. -/
theorem evalGo_ok_of_valid :
    ∀ (ws : List Workload) (td tm : ℚ) (acc : List PerWorkload),
      (∀ w ∈ ws, (lookupRate w.size).isSome) →
      ∃ res, evalGo ws td tm acc = .ok res ∧
        res.totalDaily = td + (ws.filterMap workload_daily_credits).sum ∧
        res.totalMonthly = tm + (ws.filterMap workload_monthly_credits).sum ∧
        res.totalAnnual = res.totalMonthly * 12 := by
  intro ws
  induction ws with
  | nil =>
    intro td tm acc _
    exact ⟨_, rfl, by simp, by simp, rfl⟩
  | cons w rest ih =>
    intro td tm acc h
    obtain ⟨r, hr⟩ := Option.isSome_iff_exists.mp (h w (by simp))
    have hrest : ∀ x ∈ rest, (lookupRate x.size).isSome :=
      fun x hx => h x (by simp [hx])
    obtain ⟨res, hres, hd, hm, ha⟩ :=
      ih (td + r * w.uptime * (w.count : ℚ))
        (tm + r * w.uptime * (w.count : ℚ) * (w.days_per_week : ℚ) * WEEKS_PER_MONTH)
        (⟨r * w.uptime * (w.count : ℚ),
          r * w.uptime * (w.count : ℚ) * (w.days_per_week : ℚ) * WEEKS_PER_MONTH⟩ :: acc)
        hrest
    refine ⟨res, ?_, ?_, ?_, ha⟩
    · simpa [evalGo, hr] using hres
    · rw [hd]
      simp [workload_daily_credits, hr]
      ring
    · rw [hm]
      simp [workload_monthly_credits, workload_daily_credits, hr]
      ring

/-- C2: on a list whose sizes are all valid, the evaluation totals are the
sums of the per-workload daily and monthly credits, and the annual total is
exactly the monthly total times 12. -/
theorem totals_are_sums (ws : List Workload)
    (h : ∀ w ∈ ws, (lookupRate w.size).isSome) :
    ∃ res, evaluate ws = .ok res ∧
      res.totalDaily = (ws.filterMap workload_daily_credits).sum ∧
      res.totalMonthly = (ws.filterMap workload_monthly_credits).sum ∧
      res.totalAnnual = res.totalMonthly * 12 := by
  obtain ⟨res, h1, h2, h3, h4⟩ := evalGo_ok_of_valid ws 0 0 [] h
  exact ⟨res, h1, by rw [h2]; ring, by rw [h3]; ring, h4⟩

/-- Witness for C2: the sum identities on a concrete singleton list. -/
theorem totals_are_sums_witness :
    ∃ res, evaluate [defaultWorkload] = .ok res ∧
      res.totalDaily = ([defaultWorkload].filterMap workload_daily_credits).sum ∧
      res.totalMonthly = ([defaultWorkload].filterMap workload_monthly_credits).sum ∧
      res.totalAnnual = res.totalMonthly * 12 :=
  totals_are_sums [defaultWorkload] (by decide)

/-- A list containing a workload with an unknown size makes the whole
evaluation pass fail with that size, whatever the accumulators hold. -/
theorem evalGo_err_of_invalid :
    ∀ ws : List Workload, (∃ w ∈ ws, lookupRate w.size = none) →
      ∃ s, lookupRate s = none ∧
        ∀ td tm acc, evalGo ws td tm acc = .error (.invalidSize s) := by
  intro ws
  induction ws with
  | nil =>
    rintro ⟨w, hw, -⟩
    exact absurd hw (List.not_mem_nil w)
  | cons w rest ih =>
    rintro ⟨x, hx, hxn⟩
    cases hr : lookupRate w.size with
    | none =>
      exact ⟨w.size, hr, fun td tm acc => by simp [evalGo, hr]⟩
    | some r =>
      have hrest : ∃ y ∈ rest, lookupRate y.size = none := by
        rcases List.mem_cons.mp hx with h1 | h1
        · subst h1
          rw [hr] at hxn
          cases hxn
        · exact ⟨x, h1, hxn⟩
      obtain ⟨s, hs, hall⟩ := ih hrest
      refine ⟨s, hs, fun td tm acc => ?_⟩
      simp only [evalGo, hr]
      exact hall _ _ _

/-- C3: evaluating a list holding some workload whose size is not a
rate-table key fails with an InvalidSize error naming an unknown size; no
`EvalResult` is produced at all, so no partially-computed or silently wrong
totals can be returned. -/
theorem evaluate_fails_on_invalid_size (ws : List Workload)
    (h : ∃ w ∈ ws, lookupRate w.size = none) :
    ∃ s, lookupRate s = none ∧ evaluate ws = .error (.invalidSize s) := by
  obtain ⟨s, hs, hall⟩ := evalGo_err_of_invalid ws h
  exact ⟨s, hs, hall 0 0 []⟩

/-- Witness for C3: evaluation of a list with the unknown size
"UnknownTier" fails. -/
theorem evaluate_fails_on_invalid_size_witness :
    ∃ s, lookupRate s = none ∧
      evaluate [⟨"W", "UnknownTier", 1, 8, 5⟩] = .error (.invalidSize s) :=
  evaluate_fails_on_invalid_size [⟨"W", "UnknownTier", 1, 8, 5⟩]
    ⟨⟨"W", "UnknownTier", 1, 8, 5⟩, by decide, by rfl⟩

/-- C4: at a valid index, an update with a value outside the field domain
fails with InvalidValue for every field: empty name, unknown size, count
below 1, uptime outside [0, 24], days-per-week outside [1, 7].  The error
outcome carries no list, so the record is untouched and the invalid value
is never stored. -/
theorem update_rejects_invalid (ws : List Workload) (i : Nat)
    (hi : i < ws.length) :
    (update ws i (FieldUpdate.name "") = .error .invalidValue) ∧
    (∀ v, lookupRate v = none →
      update ws i (FieldUpdate.size v) = .error .invalidValue) ∧
    (∀ v : Nat, v < 1 →
      update ws i (FieldUpdate.count v) = .error .invalidValue) ∧
    (∀ v : ℚ, v < 0 ∨ 24 < v →
      update ws i (FieldUpdate.uptime v) = .error .invalidValue) ∧
    (∀ v : Nat, v < 1 ∨ 7 < v →
      update ws i (FieldUpdate.days v) = .error .invalidValue) := by
  have hget : ws[i]? = some ws[i] := List.getElem?_eq_getElem hi
  refine ⟨?_, ?_, ?_, ?_, ?_⟩
  · simp [update, hget, validUpdate]
  · intro v hv
    simp [update, hget, validUpdate, hv]
  · intro v hv
    have hnv : ¬ 1 ≤ v := Nat.not_le.mpr hv
    simp [update, hget, validUpdate, hnv]
  · intro v hv
    have hnv : ¬ (0 ≤ v ∧ v ≤ 24) := by
      rcases hv with h | h
      · exact fun hc => absurd hc.1 (not_le.mpr h)
      · exact fun hc => absurd hc.2 (not_le.mpr h)
    simp [update, hget, validUpdate, hnv]
  · intro v hv
    have hnv : ¬ (1 ≤ v ∧ v ≤ 7) := by omega
    simp [update, hget, validUpdate, hnv]

/-- Witness for C4: updating the size of the first record of a concrete
list to "UnknownTier" fails with InvalidValue. -/
theorem update_rejects_invalid_witness :
    update [defaultWorkload] 0 (FieldUpdate.size "UnknownTier") =
      .error .invalidValue :=
  (update_rejects_invalid [defaultWorkload] 0 (by decide)).2.1 "UnknownTier"
    (by rfl)

/-- C7: a valid count update at a valid index succeeds and touches only the
count field of the record at that index; the other fields of that record
and every other record are unchanged. -/
theorem update_count_frame (ws : List Workload) (i : Nat) (v : Nat)
    (hi : i < ws.length) (hv : 1 ≤ v) :
    ∃ w ws2, ws[i]? = some w ∧
      update ws i (FieldUpdate.count v) = .ok ws2 ∧
      ws2.length = ws.length ∧
      ws2[i]? = some ⟨w.name, w.size, v, w.uptime, w.days_per_week⟩ ∧
      ∀ j, j ≠ i → ws2[j]? = ws[j]? := by
  have hget : ws[i]? = some ws[i] := List.getElem?_eq_getElem hi
  refine ⟨ws[i], ws.set i (setField ws[i] (FieldUpdate.count v)), hget,
    ?_, by simp, ?_, ?_⟩
  · simp [update, hget, validUpdate, hv]
  · rw [List.getElem?_set]
    simp [setField, hi]
  · intro j hj
    rw [List.getElem?_set]
    simp [Ne.symm hj]

/-- Witness for C7: updating the count of the only record of a concrete
singleton list to 3. -/
theorem update_count_frame_witness :
    ∃ w ws2, [defaultWorkload][0]? = some w ∧
      update [defaultWorkload] 0 (FieldUpdate.count 3) = .ok ws2 ∧
      ws2.length = [defaultWorkload].length ∧
      ws2[0]? = some ⟨w.name, w.size, 3, w.uptime, w.days_per_week⟩ ∧
      ∀ j, j ≠ 0 → ws2[j]? = [defaultWorkload][j]? :=
  update_count_frame [defaultWorkload] 0 3 (by decide) (by decide)

/-- Backfill preserves the length of the stored list. -/
theorem normalizeFrom_length :
    ∀ (j : Nat) (ws : List StoredWorkload),
      (normalizeFrom j ws).length = ws.length := by
  intro j ws
  induction ws generalizing j with
  | nil => rfl
  | cons w rest ih => simp [normalizeFrom, ih]

/-- Pointwise description of the backfill: position `i` of the output is
the backfill of position `i` of the input, at absolute position `j + i`. -/
theorem normalizeFrom_getElem? :
    ∀ (ws : List StoredWorkload) (j i : Nat),
      (normalizeFrom j ws)[i]? = (ws[i]?).map (normalizeWorkload (j + i)) := by
  intro ws
  induction ws with
  | nil => intro j i; rfl
  | cons w rest ih =>
    intro j i
    cases i with
    | zero => simp [normalizeFrom]
    | succ i =>
      simp only [normalizeFrom, List.getElem?_cons_succ, ih (j + 1) i]
      have : j + 1 + i = j + (i + 1) := by omega
      rw [this]

/-- Backfilling a list that is already fully populated changes nothing. -/
theorem normalizeFrom_idem :
    ∀ (j : Nat) (ws : List StoredWorkload),
      normalizeFrom j ((normalizeFrom j ws).map toStored) = normalizeFrom j ws := by
  intro j ws
  induction ws generalizing j with
  | nil => rfl
  | cons w rest ih =>
    simp only [normalizeFrom, List.map_cons]
    rw [ih (j + 1)]
    simp [normalizeWorkload, toStored]

/-- C5: initialization with no existing list creates exactly the single
default workload; with an existing list it keeps the length (no reset, no
duplication), is idempotent, and backfills each record pointwise: size,
count and uptime are kept, a present name or days-per-week is kept, a
missing name becomes "Workload {position+1}" and a missing days-per-week
becomes 7. -/
theorem initStore_idempotent_backfill (ws : List StoredWorkload) (i : Nat)
    (hi : i < ws.length) :
    initStore none = [defaultWorkload] ∧
    (initStore (some ws)).length = ws.length ∧
    initStore (some ((initStore (some ws)).map toStored)) = initStore (some ws) ∧
    ∃ w out, ws[i]? = some w ∧ (initStore (some ws))[i]? = some out ∧
      out.size = w.size ∧ out.count = w.count ∧ out.uptime = w.uptime ∧
      (∀ n, w.name = some n → out.name = n) ∧
      (w.name = none → out.name = "Workload " ++ toString (i + 1)) ∧
      (∀ d, w.days_per_week = some d → out.days_per_week = d) ∧
      (w.days_per_week = none → out.days_per_week = 7) := by
  have hget : ws[i]? = some ws[i] := List.getElem?_eq_getElem hi
  refine ⟨rfl, normalizeFrom_length 0 ws, normalizeFrom_idem 0 ws,
    ws[i], normalizeWorkload i ws[i], hget, ?_, rfl, rfl, rfl, ?_, ?_, ?_, ?_⟩
  · rw [show initStore (some ws) = normalizeFrom 0 ws from rfl,
      normalizeFrom_getElem? ws 0 i, hget]
    simp
  · intro n hn
    simp [normalizeWorkload, hn]
  · intro hn
    simp [normalizeWorkload, hn]
  · intro d hd
    simp [normalizeWorkload, hd]
  · intro hd
    simp [normalizeWorkload, hd]

/-- Witness for C5: initialization over a concrete one-record stored list
missing both optional fields. -/
theorem initStore_idempotent_backfill_witness :
    initStore none = [defaultWorkload] ∧
    (initStore (some [⟨none, "Small", 2, 3, none⟩])).length =
      [(⟨none, "Small", 2, 3, none⟩ : StoredWorkload)].length ∧
    initStore (some ((initStore (some [⟨none, "Small", 2, 3, none⟩])).map toStored)) =
      initStore (some [⟨none, "Small", 2, 3, none⟩]) ∧
    ∃ w out, [(⟨none, "Small", 2, 3, none⟩ : StoredWorkload)][0]? = some w ∧
      (initStore (some [⟨none, "Small", 2, 3, none⟩]))[0]? = some out ∧
      out.size = w.size ∧ out.count = w.count ∧ out.uptime = w.uptime ∧
      (∀ n, w.name = some n → out.name = n) ∧
      (w.name = none → out.name = "Workload " ++ toString (0 + 1)) ∧
      (∀ d, w.days_per_week = some d → out.days_per_week = d) ∧
      (w.days_per_week = none → out.days_per_week = 7) :=
  initStore_idempotent_backfill [⟨none, "Small", 2, 3, none⟩] 0 (by decide)

/-- The per-workload accumulator has no influence on the totals of an
evaluation pass. -/
theorem evalGo_totals_acc :
    ∀ (ws : List Workload) (td tm : ℚ) (acc acc2 : List PerWorkload),
      totalsOf (evalGo ws td tm acc) = totalsOf (evalGo ws td tm acc2) := by
  intro ws
  induction ws with
  | nil => intro td tm acc acc2; rfl
  | cons w rest ih =>
    intro td tm acc acc2
    cases hr : lookupRate w.size with
    | none => simp [evalGo, hr]
    | some r =>
      simp only [evalGo, hr]
      exact ih _ _ _ _

/-- Inserting a zero-uptime workload with a valid size anywhere in the list
does not change the totals of the evaluation pass. -/
theorem evalGo_zero_uptime_skip (w : Workload) (r : ℚ) (hu : w.uptime = 0)
    (hr : lookupRate w.size = some r) :
    ∀ (l1 l2 : List Workload) (td tm : ℚ) (acc : List PerWorkload),
      totalsOf (evalGo (l1 ++ w :: l2) td tm acc) =
        totalsOf (evalGo (l1 ++ l2) td tm acc) := by
  intro l1
  induction l1 with
  | nil =>
    intro l2 td tm acc
    simp only [List.nil_append, evalGo, hr, hu, mul_zero, zero_mul, add_zero]
    exact evalGo_totals_acc l2 td tm _ acc
  | cons a l1 ih =>
    intro l2 td tm acc
    cases ha : lookupRate a.size with
    | none => simp [evalGo, ha]
    | some ra =>
      simp only [List.cons_append, evalGo, ha]
      exact ih l2 _ _ _

/-- C10: a workload with zero uptime and a valid size has daily and monthly
credits 0, and evaluating any list containing it yields the same totals as
evaluating the list with it removed. -/
theorem zero_uptime_contributes_nothing (w : Workload)
    (hu : w.uptime = 0) (hs : (lookupRate w.size).isSome) :
    workload_daily_credits w = some 0 ∧
    workload_monthly_credits w = some 0 ∧
    ∀ l1 l2 : List Workload,
      totalsOf (evaluate (l1 ++ w :: l2)) = totalsOf (evaluate (l1 ++ l2)) := by
  obtain ⟨r, hr⟩ := Option.isSome_iff_exists.mp hs
  refine ⟨?_, ?_, fun l1 l2 => evalGo_zero_uptime_skip w r hu hr l1 l2 0 0 []⟩
  · simp [workload_daily_credits, hr, hu]
  · simp [workload_monthly_credits, workload_daily_credits, hr, hu]

/-- Witness for C10: a concrete zero-uptime workload contributes nothing
to a concrete list. -/
theorem zero_uptime_contributes_nothing_witness :
    workload_daily_credits ⟨"W", "Medium", 3, 0, 5⟩ = some 0 ∧
    workload_monthly_credits ⟨"W", "Medium", 3, 0, 5⟩ = some 0 ∧
    totalsOf (evaluate ([defaultWorkload] ++ ⟨"W", "Medium", 3, 0, 5⟩ :: [])) =
      totalsOf (evaluate ([defaultWorkload] ++ [])) := by
  have h := zero_uptime_contributes_nothing ⟨"W", "Medium", 3, 0, 5⟩ rfl (by rfl)
  exact ⟨h.1, h.2.1, h.2.2 [defaultWorkload] []⟩
